import Mathlib

/-!
# Verification of the go-browser-inventory extension discovery engine

A shallow embedding of the repository's core (path-independent parts of the
Chromium and Firefox scanners, the locale-placeholder resolver, the SQLite
result cache, and the entry-point browser selection), with theorems settling
the specification claims.

Filesystem interaction is modelled by explicit structures holding the data the
Go code would read: each `os.ReadDir` / `os.ReadFile` / `json.Unmarshal` site
becomes an `Option`- or constructor-valued field (`none` / a failure
constructor standing for the corresponding error), keyed by the path
components the code joins.  Strings are Lean `String`s (the repository only
manipulates them as ASCII-ish text); timestamps are `Int` seconds, matching
`time.Now().Unix()`.
-/

namespace BrowserInventory

/-- The `Extension` record (internal/browsers structs, current layout with the
`Profile` field used by `main.go`, `chromium.go` and the aggregating Firefox
scanner). -/
structure Extension where
  name : String
  version : String
  id : String
  enabled : Bool
  browser : String
  profile : String
deriving DecidableEq

/-- One `os.DirEntry`: a name and its `IsDir` bit. -/
structure DirEntry where
  name : String
  isDir : Bool
deriving DecidableEq

deriving instance DecidableEq for Except

/-- Go `strings.HasPrefix`, character-wise (the repository handles ASCII-only
metadata, where Go's byte-wise comparison and this agree). -/
def goHasPrefix (s pre : String) : Bool := pre.data.isPrefixOf s.data

/-- Go `strings.HasSuffix`, character-wise. -/
def goHasSuffix (s suf : String) : Bool := suf.data.isSuffixOf s.data

/-- Go `strings.TrimPrefix`: drop `pre` when it heads `s`, else `s` unchanged. -/
def goTrimLeading (s pre : String) : String :=
  if goHasPrefix s pre then s.drop pre.length else s

/-- Go `strings.TrimSuffix`: drop `suf` when it ends `s`, else `s` unchanged. -/
def goTrimTrailing (s suf : String) : String :=
  if goHasSuffix s suf then s.dropRight suf.length else s

/-- ASCII lower-casing of one character, as `strings.ToLower` acts on the
ASCII identifiers the repository compares. -/
def charLower (c : Char) : Char :=
  if 65 ≤ c.toNat ∧ c.toNat ≤ 90 then Char.ofNat (c.toNat + 32) else c

/-- Go `strings.ToLower` (ASCII range). -/
def goToLower (s : String) : String := ⟨s.data.map charLower⟩

/-- The whitespace characters `strings.TrimSpace` strips in the ASCII inputs
at hand. -/
def isSpaceChar (c : Char) : Bool := c = ' ' || c = '\t' || c = '\r' || c = '\n'

/-- Go `strings.TrimSpace`. -/
def goTrimSpace (s : String) : String :=
  ⟨((s.data.dropWhile isSpaceChar).reverse.dropWhile isSpaceChar).reverse⟩

/-- Helper for splitting on a one-character separator. -/
def splitCharAux (sep : Char) : List Char → List Char → List String
  | [], acc => [⟨acc.reverse⟩]
  | c :: cs, acc =>
    if c = sep then ⟨acc.reverse⟩ :: splitCharAux sep cs []
    else splitCharAux sep cs (c :: acc)

/-- Go `strings.Split` with a one-character separator (the only form the
repository uses: `"\n"` for registry lines, `"/"` inside `filepath.Base`). -/
def goSplitChar (sep : Char) (s : String) : List String := splitCharAux sep s.data []

/-- Linux `filepath.IsAbs`. -/
def isAbsPath (p : String) : Bool := goHasPrefix p "/"

/-- `filepath.Join` of two segments (the repository only joins clean
slash-separated segments, so plain concatenation is faithful here). -/
def joinPath (a b : String) : String := a ++ "/" ++ b

/-- `filepath.Base`: the last non-empty slash-separated component; `"/"` for a
pure slash path and `"."` for the empty path, as in Go. -/
def baseName (p : String) : String :=
  match ((goSplitChar '/' p).filter (fun c => c ≠ "")).getLast? with
  | some l => l
  | none => if goHasPrefix p "/" then "/" else "."

/-! ## Locale resolution (`resolveMessage`, internal/browsers/browsers.go)

A `messages.json` table is the parsed `map[string]struct{ Message string }`,
modelled as an association list from key to message text.  The `_locales`
directory is modelled by `LocaleFS`: `ok` is false when the directory is
missing (`os.Stat`/`os.IsNotExist`) or unlistable (`os.ReadDir` error) — both
return the bare key immediately; `dirs` is the `os.ReadDir` listing; `load l`
is `some table` exactly when `<root>/_locales/l/messages.json` is readable and
parses, and `none` when reading or unmarshalling fails (both degrade to "no
match at this locale" in the code). -/
structure LocaleFS where
  ok : Bool
  dirs : List DirEntry
  load : String → Option (List (String × String))

/-- Lookup of a key in a parsed message table (`messages[k]`). -/
def lookupMsg (t : List (String × String)) (k : String) : Option String :=
  match t with
  | [] => none
  | (k', v) :: rest => if k' = k then some v else lookupMsg rest k

/-- The two-case lookup every tier performs: original-case key first, then the
lower-cased key. -/
def lookup2 (t : List (String × String)) (orig lower : String) : Option String :=
  match lookupMsg t orig with
  | some v => some v
  | none => lookupMsg t lower

/-- The English-fallback loop of `resolveMessage` (browsers.go:172-209): for
each of `"en"`, `"en_US"` in order, skipped when equal to the default locale,
read and parse its table and do the two-case lookup, returning on first hit. -/
def enLoop (fs : LocaleFS) (defaultLocale orig lower : String) :
    List String → Option String
  | [] => none
  | loc :: rest =>
    if loc = defaultLocale then enLoop fs defaultLocale orig lower rest
    else
      match (fs.load loc).bind (fun t => lookup2 t orig lower) with
      | some v => some v
      | none => enLoop fs defaultLocale orig lower rest

/-- The remaining-locales loop of `resolveMessage` (browsers.go:212-236): every
listed `_locales` entry in enumeration order, skipping non-directories and the
already-tried `defaultLocale`/`en`/`en_US`, two-case lookup, first hit wins. -/
def othersLoop (fs : LocaleFS) (defaultLocale orig lower : String) :
    List DirEntry → Option String
  | [] => none
  | d :: rest =>
    if !d.isDir || d.name = defaultLocale || d.name = "en" || d.name = "en_US" then
      othersLoop fs defaultLocale orig lower rest
    else
      match (fs.load d.name).bind (fun t => lookup2 t orig lower) with
      | some v => some v
      | none => othersLoop fs defaultLocale orig lower rest

/-- `resolveMessage` (browsers.go:109-242).  Strips the `__MSG_` prefix and
`__` suffix (unconditionally — the full-pattern check is the caller's), then:
bare key if `_locales` is missing/unlistable; otherwise default-locale tier,
English tier, remaining-directories tier, and finally the bare key. -/
def resolveMessage (msg : String) (fs : LocaleFS) (defaultLocale : String) : String :=
  let msgKey := goTrimTrailing (goTrimLeading msg "__MSG_") "__"
  let lookupKey := goToLower msgKey
  let lookupKeyOriginal := msgKey
  if !fs.ok then msgKey
  else
    let fromDefault : Option String :=
      if defaultLocale ≠ "" then
        (fs.load defaultLocale).bind (fun t => lookup2 t lookupKeyOriginal lookupKey)
      else none
    match fromDefault with
    | some v => v
    | none =>
      match enLoop fs defaultLocale lookupKeyOriginal lookupKey ["en", "en_US"] with
      | some v => v
      | none =>
        match othersLoop fs defaultLocale lookupKeyOriginal lookupKey fs.dirs with
        | some v => v
        | none => msgKey

/-- The placeholder gate at the call site (chromium.go:116-119): only names
bearing the `__MSG_` prefix are sent to `resolveMessage`. -/
def resolveExtensionName (name : String) (fs : LocaleFS) (defaultLocale : String) : String :=
  if goHasPrefix name "__MSG_" then resolveMessage name fs defaultLocale else name

/-- The key a placeholder input is reduced to (prefix and trailing marker
stripped). -/
def msgKeyOf (msg : String) : String :=
  goTrimTrailing (goTrimLeading msg "__MSG_") "__"

/-! ## Chromium scanner (`getChromiumExtensions`, internal/browsers/chromium.go)

The scan is keyed by the path components the code joins under the user-data
root: profile directory name, extension-ID directory name, version directory
name.  `manifests p e v` is `none` when the manifest file is unreadable
(skipped), `some none` when it is unparseable (skipped), and `some (some m)`
when it parses.  `extDirs p = none` models an `os.ReadDir` failure on the
profile's `Extensions` directory, which aborts the whole browser scan;
`versionDirs p e = none` models a failure listing one extension's versions,
which only skips that extension. -/
structure ChromiumManifest where
  name : String
  version : String
  defaultLocale : String
deriving DecidableEq

structure ChromiumFS where
  baseExists : Bool
  localState : Option (List (String × String))
  profileEntries : Option (List DirEntry)
  extDirExists : String → Bool
  extDirs : String → Option (List DirEntry)
  versionDirs : String → String → Option (List DirEntry)
  manifests : String → String → String → Option (Option ChromiumManifest)
  locales : String → String → String → LocaleFS

/-- A user-data subdirectory is a candidate profile iff named `Default` or
prefixed `Profile` (chromium.go:52). -/
def qualifiesProfile (n : String) : Bool :=
  n = "Default" || goHasPrefix n "Profile"

/-- Display name of a profile: the `Local State` `info_cache` entry when
present and non-empty, else the directory name (chromium.go:56-59; a missing
or unparseable `Local State` leaves the map empty). -/
def chromiumProfileName (fs : ChromiumFS) (dir : String) : String :=
  let n := (lookupMsg (fs.localState.getD []) dir).getD ""
  if n = "" then dir else n

/-- Records contributed by one version directory (chromium.go:91-129): a
directory whose manifest reads and parses yields one record, with the name
sent through the placeholder gate; read or parse failures yield nothing. -/
def versionRecords (fs : ChromiumFS) (browser pname pdir ext : String)
    (v : DirEntry) : List Extension :=
  if !v.isDir then []
  else
    match fs.manifests pdir ext v.name with
    | some (some m) =>
      [{ name := resolveExtensionName m.name (fs.locales pdir ext v.name) m.defaultLocale,
         version := m.version, id := ext, enabled := true,
         browser := browser, profile := pname }]
    | _ => []

/-- Records contributed by one extension-ID directory (chromium.go:78-130):
non-directories are skipped, an unlistable version directory skips the
extension, otherwise every version subdirectory is visited. -/
def extRecords (fs : ChromiumFS) (browser pname pdir : String)
    (d : DirEntry) : List Extension :=
  if !d.isDir then []
  else
    match fs.versionDirs pdir d.name with
    | none => []
    | some vs => vs.flatMap (versionRecords fs browser pname pdir d.name)

/-- The per-profile loop (chromium.go:47-131).  Skips non-candidate entries and
profiles without an `Extensions` directory; a failure listing a present
`Extensions` directory aborts the whole scan with an error (chromium.go:73-76);
otherwise the profile's records are prepended to the remaining profiles'. -/
def scanProfileList (fs : ChromiumFS) (browser : String) :
    List DirEntry → Except String (List Extension)
  | [] => .ok []
  | e :: rest =>
    if !e.isDir || !qualifiesProfile e.name then scanProfileList fs browser rest
    else if !fs.extDirExists e.name then scanProfileList fs browser rest
    else
      match fs.extDirs e.name with
      | none => .error "failed to read extensions directory"
      | some ds =>
        match scanProfileList fs browser rest with
        | .error msg => .error msg
        | .ok restExts =>
          .ok (ds.flatMap (extRecords fs browser (chromiumProfileName fs e.name) e.name)
               ++ restExts)

/-- `getChromiumExtensions` (chromium.go:11-140), over the modelled user-data
directory: missing base or unlistable base directory is an error; otherwise
the per-profile loop runs over the listing. -/
def chromiumScan (browser : String) (fs : ChromiumFS) : Except String (List Extension) :=
  if !fs.baseExists then .error "profile base directory not found"
  else
    match fs.profileEntries with
    | none => .error "failed to read profile directory"
    | some es => scanProfileList fs browser es

/-- The pure per-profile record list, defined for profiles whose `Extensions`
listing succeeded (used to state what a successful scan returns). -/
def profilePureRecords (fs : ChromiumFS) (browser : String) (e : DirEntry) :
    List Extension :=
  if !e.isDir || !qualifiesProfile e.name || !fs.extDirExists e.name then []
  else
    match fs.extDirs e.name with
    | none => []
    | some ds =>
      ds.flatMap (extRecords fs browser (chromiumProfileName fs e.name) e.name)

/-- Whether one version directory holds a valid (readable and parseable)
manifest. -/
def versionOk (fs : ChromiumFS) (pdir ext : String) (v : DirEntry) : Bool :=
  v.isDir && (match fs.manifests pdir ext v.name with
              | some (some _) => true
              | _ => false)

/-- Number of valid-manifest version directories under one extension-ID
directory. -/
def extOkCount (fs : ChromiumFS) (pdir : String) (d : DirEntry) : Nat :=
  if !d.isDir then 0
  else
    match fs.versionDirs pdir d.name with
    | none => 0
    | some vs => vs.countP (versionOk fs pdir d.name)

/-- Number of valid-manifest version directories under one candidate profile. -/
def profileOkCount (fs : ChromiumFS) (e : DirEntry) : Nat :=
  if !e.isDir || !qualifiesProfile e.name || !fs.extDirExists e.name then 0
  else
    match fs.extDirs e.name with
    | none => 0
    | some ds => (ds.map (extOkCount fs e.name)).sum

/-- Number of valid-manifest version directories across a user-data listing. -/
def treeOkCount (fs : ChromiumFS) (es : List DirEntry) : Nat :=
  (es.map (profileOkCount fs)).sum

/-! ## Firefox scanner (`getFirefoxExtensions`, aggregating variant,
internal/browsers/browsers.go:254-350)

`profiles.ini` is held as its raw text; the scanner splits it on newlines and
walks the lines exactly as the Go loop does.  Each profile's
`extensions.json` (keyed by the resolved profile path) is `missing`
(`os.IsNotExist`, profile skipped), `badRead` (other read error, aborts the
Firefox scan), `badParse` (unmarshal failure, aborts), or the parsed addon
list. -/
structure FirefoxAddon where
  id : String
  version : String
  active : Bool
  defaultLocaleName : String
deriving DecidableEq

inductive AddonFile where
  | missing : AddonFile
  | badRead : AddonFile
  | badParse : AddonFile
  | ok : List FirefoxAddon → AddonFile
deriving DecidableEq

structure FirefoxFS where
  baseExists : Bool
  ini : Option String
  extJson : String → AddonFile

/-- A trimmed line is an INI section header iff bracketed on both ends
(browsers.go:273). -/
def isSectionHeader (t : String) : Bool :=
  goHasPrefix t "[" && goHasSuffix t "]"

/-- The registry walk of browsers.go:271-295 restricted to what the scanner
uses: every trimmed `Path=`-prefixed line seen while inside some section
contributes a profile path, in file order.  (`cur` is the current section
header, `""` before any header; the `Default=1` branch of the loop only fills
a variable the function never reads.) -/
def parseIniProfiles : List String → String → List String
  | [], _ => []
  | l :: ls, cur =>
    let t := goTrimSpace l
    if isSectionHeader t then parseIniProfiles ls t
    else if goHasPrefix t "Path=" && cur ≠ "" then
      goTrimLeading t "Path=" :: parseIniProfiles ls cur
    else parseIniProfiles ls cur

/-- The profile paths the scanner collects from the registry text. -/
def profilesOf (content : String) : List String :=
  parseIniProfiles (goSplitChar '\n' content) ""

/-- Relative registry paths are joined under the profiles root
(browsers.go:299-301). -/
def resolveProfilePath (basePath p : String) : String :=
  if isAbsPath p then p else joinPath basePath p

/-- The records one registry profile contributes (browsers.go:332-342): each
addon entry becomes a record tagged with the resolved profile path's base
name; a missing or failed addon registry contributes nothing. -/
def profileAddonRecords (browser basePath : String) (fs : FirefoxFS)
    (p : String) : List Extension :=
  match fs.extJson (resolveProfilePath basePath p) with
  | .ok addons =>
    addons.map (fun a =>
      { name := a.defaultLocaleName, version := a.version, id := a.id,
        enabled := a.active, browser := browser,
        profile := baseName (resolveProfilePath basePath p) })
  | _ => []

/-- The per-profile loop (browsers.go:298-343): a missing `extensions.json`
skips the profile; any other read failure or a parse failure aborts the scan;
otherwise the profile's records are prepended to the remaining profiles'. -/
def scanFirefoxProfiles (browser basePath : String) (fs : FirefoxFS) :
    List String → Except String (List Extension)
  | [] => .ok []
  | p :: rest =>
    match fs.extJson (resolveProfilePath basePath p) with
    | .missing => scanFirefoxProfiles browser basePath fs rest
    | .badRead => .error "failed to read extensions.json"
    | .badParse => .error "failed to parse extensions.json"
    | .ok _ =>
      match scanFirefoxProfiles browser basePath fs rest with
      | .error msg => .error msg
      | .ok restExts => .ok (profileAddonRecords browser basePath fs p ++ restExts)

/-- The aggregating `getFirefoxExtensions` (browsers.go:254-350): missing
profiles root or unreadable `profiles.ini` is an error; otherwise every
registered profile is scanned. -/
def firefoxScanMulti (browser basePath : String) (fs : FirefoxFS) :
    Except String (List Extension) :=
  if !fs.baseExists then .error "profiles directory not found"
  else
    match fs.ini with
    | none => .error "failed to read profiles.ini"
    | some content => scanFirefoxProfiles browser basePath fs (profilesOf content)

/-- A profile path whose addon registry neither fails to read nor fails to
parse (it may be absent). -/
def profileReadable (basePath : String) (fs : FirefoxFS) (p : String) : Bool :=
  match fs.extJson (resolveProfilePath basePath p) with
  | .badRead => false
  | .badParse => false
  | _ => true

/-! ### The section marked `Default=1`

The claims about the registry's marked default profile are stated through a
section-aware reading of the same line discipline: `annotateLines` tags every
non-header trimmed line with the header of the section it lies in. -/

/-- Tag each trimmed non-header line with its enclosing section header
(`""` before the first header). -/
def annotateLines : List String → String → List (String × String)
  | [], _ => []
  | l :: ls, cur =>
    let t := goTrimSpace l
    if isSectionHeader t then annotateLines ls t
    else (cur, t) :: annotateLines ls cur

/-- The `Path=` value of the section containing a literal `Default=1` line
(the registry's marked default profile), when one exists. -/
def markedSectionPath (lines : List String) : Option String :=
  match (annotateLines lines "").find? (fun q => q.1 ≠ "" && q.2 = "Default=1") with
  | none => none
  | some q =>
    (annotateLines lines "").findSome? (fun r =>
      if r.1 = q.1 && goHasPrefix r.2 "Path=" then some (goTrimLeading r.2 "Path=")
      else none)

/-- The profile path an annotated registry line contributes (a sectioned
`Path=` line). -/
def pathOfAnnotated (q : String × String) : Option String :=
  if goHasPrefix q.2 "Path=" && q.1 ≠ "" then some (goTrimLeading q.2 "Path=")
  else none

/-! ## Result cache (package db, `DB.GetExtensions` / `DB.UpdateExtensions`)

One browser's `<browser>_extensions` table is a list of rows; `enabled` is
stored as an integer and read back as `!= 0`, timestamps are Unix seconds.
The composite primary key `(id, profile, version)` makes an insert of a
duplicate triple fail, which rolls the transaction back. -/
structure Row where
  id : String
  name : String
  browser : String
  version : String
  enabledInt : Int
  profile : String
  timestamp : Int
deriving DecidableEq

/-- The row `UpdateExtensions` inserts for one extension at time `now`
(chromium.go db:249-259). -/
def mkRow (now : Int) (e : Extension) : Row :=
  { id := e.id, name := e.name, browser := e.browser, version := e.version,
    enabledInt := if e.enabled then 1 else 0, profile := e.profile,
    timestamp := now }

/-- Reading one row back into an `Extension` (db `GetExtensions` scan loop,
`e.Enabled = enabledInt != 0`). -/
def rowToExt (r : Row) : Extension :=
  { name := r.name, version := r.version, id := r.id,
    enabled := r.enabledInt != 0, browser := r.browser, profile := r.profile }

/-- The caching identity triple of a stored row (the table's primary key). -/
def rowTriple (r : Row) : String × String × String := (r.id, r.profile, r.version)

/-- The caching identity triple of an extension record. -/
def extTriple (e : Extension) : String × String × String := (e.id, e.profile, e.version)

/-- Whether the table already holds a row with this row's primary-key triple. -/
def hasTriple (t : List Row) (r : Row) : Bool :=
  t.any (fun s => s.id = r.id && s.profile = r.profile && s.version = r.version)

/-- The insert loop of `UpdateExtensions` run against the primary-key
constraint: rows are appended one at a time; a duplicate `(id, profile,
version)` triple fails the statement. -/
def insertAll : List Row → List Row → Except String (List Row)
  | [], acc => .ok acc
  | r :: rs, acc =>
    if hasTriple acc r then .error "UNIQUE constraint failed"
    else insertAll rs (acc ++ [r])

/-- `DB.UpdateExtensions` (db:235-263): in one transaction, delete every row
(the insert loop therefore starts from the empty table) and insert all new
rows stamped with the same `now`; on any failure the transaction is rolled
back, leaving the prior table, and the error is returned (`some msg`). -/
def dbUpdateExtensions (t₀ : List Row) (exts : List Extension) (now : Int) :
    List Row × Option String :=
  match insertAll (exts.map (mkRow now)) [] with
  | .ok t => (t, none)
  | .error msg => (t₀, some msg)

/-- Largest timestamp in the table (`SELECT timestamp ... ORDER BY timestamp
DESC LIMIT 1`); `none` on an empty table (`sql.ErrNoRows`). -/
def maxTs : List Row → Option Int
  | [] => none
  | r :: rs =>
    some (match maxTs rs with
          | none => r.timestamp
          | some m => max r.timestamp m)

/-- `DB.GetExtensions` (db:194-232): `none` is the rescan signal (the `nil`
slice) — returned when the table is empty or the latest timestamp is more
than 30 minutes (1800 seconds) old; otherwise all rows carrying the latest
timestamp, read back as extensions. -/
def dbGetExtensions (t : List Row) (now : Int) : Option (List Extension) :=
  match maxTs t with
  | none => none
  | some ts =>
    if now - ts > 1800 then none
    else some ((t.filter (fun r => r.timestamp = ts)).map rowToExt)

/-! ## Entry-point browser selection

Two entry points exist in the repository.  The current `main.go` (the cache-
aware one) builds its browser list with no validation; the earlier standalone
CLI (`src/unnamed/part_001`, also duplicated in `src/cmd/structs.go`) rejects
unknown names before constructing the inventory.  `GetExtensions`
(browsers.go:64-106) filters the three static configs case-insensitively. -/

structure BrowserConfig where
  name : String
  windowsPath : List String
  macosPath : List String
  linuxPath : List String
  isFirefox : Bool
  manifestFile : String
deriving DecidableEq

/-- The three static configs of `NewBrowserInventory` (browsers.go:14-61). -/
def inventoryConfigs : List BrowserConfig :=
  [ { name := "Chrome",
      windowsPath := ["AppData", "Local", "Google", "Chrome", "User Data", "Default"],
      macosPath := ["Library", "Application Support", "Google", "Chrome", "Default"],
      linuxPath := [".config", "google-chrome", "Default"],
      isFirefox := false, manifestFile := "manifest.json" },
    { name := "Edge",
      windowsPath := ["AppData", "Local", "Microsoft", "Edge", "User Data", "Default"],
      macosPath := ["Library", "Application Support", "Microsoft Edge", "Default"],
      linuxPath := [".config", "microsoft-edge", "Default"],
      isFirefox := false, manifestFile := "manifest.json" },
    { name := "Firefox",
      windowsPath := ["AppData", "Roaming", "Mozilla", "Firefox"],
      macosPath := ["Library", "Application Support", "Firefox", "Profiles"],
      linuxPath := [".mozilla", "firefox"],
      isFirefox := true, manifestFile := "manifest.json" } ]

/-- The config filter of `GetExtensions` (browsers.go:72-75): a config is
scanned iff no browser was selected or its name matches case-insensitively. -/
def selectConfigs (selected : String) : List BrowserConfig :=
  inventoryConfigs.filter (fun c =>
    selected = "" || goToLower c.name = goToLower selected)

/-- Outcome of an entry point's pre-scan phase. -/
inductive MainPhase where
  | validationError : MainPhase
  | proceed : List String → MainPhase
deriving DecidableEq

/-- The pre-scan phase of the current `main.go` (lines 18-43): flags are
parsed, the database is opened, and the browser list is built from the flag
with no validation of the name — there is no rejection branch. -/
def headPrescan (browser : String) : MainPhase :=
  .proceed (if browser = "" then ["Chrome", "Edge", "Firefox"] else [browser])

/-- The `validBrowsers` lookup of the standalone CLI (part_001:35-40). -/
def legacyValidBrowser (s : String) : Bool :=
  ["chrome", "edge", "firefox"].contains (goToLower s)

/-- The pre-scan phase of the standalone CLI (part_001:33-49): a non-empty
unrecognized name exits with a validation error before the inventory is
constructed; otherwise scanning proceeds with the selected name. -/
def legacyPrescan (browser : String) : MainPhase :=
  if browser ≠ "" && !legacyValidBrowser browser then .validationError
  else .proceed [browser]

/-! ## The specification's ordered fallback chain (spec §4.2)

Stated from the spec's words, for comparison with `resolveMessage`: default
locale first (original-case then lower-cased key), then the English variants
`en` and `en_US`, then every remaining locale directory in enumeration order,
then the bare key. -/

/-- Spec §4.2 step 3: the declared default locale's table, two-case lookup. -/
def specDefaultTier (fs : LocaleFS) (d orig lower : String) : Option String :=
  if d = "" then none
  else (fs.load d).bind (fun t => lookup2 t orig lower)

/-- Spec §4.2 step 4: English variants `en` then `en_US`, two-case lookup. -/
def specEnglishTier (fs : LocaleFS) (orig lower : String) : Option String :=
  ["en", "en_US"].findSome? (fun loc => (fs.load loc).bind (fun t => lookup2 t orig lower))

/-- Spec §4.2 step 5: every remaining locale directory in enumeration order —
the listed entries that are directories and are not the already-visited
default/`en`/`en_US` locales. -/
def specOthersTier (fs : LocaleFS) (d orig lower : String) : Option String :=
  fs.dirs.findSome? (fun e =>
    if !e.isDir || e.name = d || e.name = "en" || e.name = "en_US" then none
    else (fs.load e.name).bind (fun t => lookup2 t orig lower))

/-- The resolution order exactly as §4.2 lists it, short-circuiting on first
hit and degrading to the bare key. -/
def specTieredResolve (msg : String) (fs : LocaleFS) (d : String) : String :=
  let key := msgKeyOf msg
  let lower := goToLower key
  if !fs.ok then key
  else
    match specDefaultTier fs d key lower with
    | some v => v
    | none =>
      match specEnglishTier fs key lower with
      | some v => v
      | none => (specOthersTier fs d key lower).getD key

/-! ## Concrete fixtures

Small closed instances used by the witness and counterexample theorems. -/

/-- Locale filesystem whose default locale `de` holds the key `Name` under its
original case, while `en` holds a different text for the same key. -/
def c3Fs : LocaleFS :=
  { ok := true,
    dirs := [{ name := "de", isDir := true }, { name := "en", isDir := true },
             { name := "fr", isDir := true }],
    load := fun l =>
      if l = "de" then some [("Name", "Hallo Welt")]
      else if l = "en" then some [("Name", "Hello World")]
      else none }

def c1Base : String := "/home/user/.mozilla/firefox"

/-- A registry listing two profiles in two sections. -/
def c1Ini : String := "[Profile0]\nPath=abc.default\n\n[Profile1]\nPath=work.prof\n"

def c1Fs : FirefoxFS :=
  { baseExists := true, ini := some c1Ini,
    extJson := fun p =>
      if p = "/home/user/.mozilla/firefox/abc.default" then
        .ok [{ id := "uBlock0@raymondhill.net", version := "1.44.4", active := true,
               defaultLocaleName := "uBlock Origin" }]
      else if p = "/home/user/.mozilla/firefox/work.prof" then
        .ok [{ id := "addon@example.com", version := "2.0", active := false,
               defaultLocaleName := "Example Addon" }]
      else .missing }

def c4Base : String := "/home/user/.mozilla/firefox"

/-- A registry whose `Default=1` mark sits in the second-listed section. -/
def c4Ini : String :=
  "[Profile0]\nPath=first.prof\n\n[Profile1]\nPath=marked.prof\nDefault=1\n"

def c4Fs : FirefoxFS :=
  { baseExists := true, ini := some c4Ini,
    extJson := fun p =>
      if p = "/home/user/.mozilla/firefox/first.prof" then
        .ok [{ id := "first@example.com", version := "1.0", active := true,
               defaultLocaleName := "First" }]
      else if p = "/home/user/.mozilla/firefox/marked.prof" then
        .ok [{ id := "marked@example.com", version := "3.1", active := true,
               defaultLocaleName := "Marked" }]
      else .missing }

/-- Chromium user-data tree with one profile, one extension ID, and eleven
version directories: ten with valid manifests and one (`11.0`) whose manifest
is unparseable. -/
def c5Fs : ChromiumFS :=
  { baseExists := true, localState := none,
    profileEntries := some [{ name := "Default", isDir := true }],
    extDirExists := fun p => p = "Default",
    extDirs := fun p =>
      if p = "Default" then some [{ name := "aabbccddeeff", isDir := true }]
      else none,
    versionDirs := fun p ext =>
      if p = "Default" && ext = "aabbccddeeff" then
        some [{ name := "1.0", isDir := true }, { name := "2.0", isDir := true },
              { name := "3.0", isDir := true }, { name := "4.0", isDir := true },
              { name := "5.0", isDir := true }, { name := "6.0", isDir := true },
              { name := "7.0", isDir := true }, { name := "8.0", isDir := true },
              { name := "9.0", isDir := true }, { name := "10.0", isDir := true },
              { name := "11.0", isDir := true }]
      else none,
    manifests := fun p ext v =>
      if p = "Default" && ext = "aabbccddeeff" then
        (if v = "11.0" then some none
         else some (some { name := "Sample Extension", version := v, defaultLocale := "" }))
      else none,
    locales := fun _ _ _ => { ok := false, dirs := [], load := fun _ => none } }

/-- Firefox layout whose single profile's addon registry holds one addon entry
with an empty `id` (as Go unmarshals `{"addons":[{"version":"1.0",
"active":true}]}`). -/
def c7FirefoxFs : FirefoxFS :=
  { baseExists := true, ini := some "[Profile0]\nPath=p1\n",
    extJson := fun _ =>
      .ok [{ id := "", version := "1.0", active := true, defaultLocaleName := "" }] }

/-- Chromium user-data tree with one profile (display-named via Local State),
one extension and one valid manifest. -/
def c7ChromiumFs : ChromiumFS :=
  { baseExists := true, localState := some [("Default", "Person 1")],
    profileEntries := some [{ name := "Default", isDir := true }],
    extDirExists := fun p => p = "Default",
    extDirs := fun p =>
      if p = "Default" then some [{ name := "abcdefgh", isDir := true }] else none,
    versionDirs := fun p ext =>
      if p = "Default" && ext = "abcdefgh" then
        some [{ name := "1.2.3", isDir := true }]
      else none,
    manifests := fun p ext v =>
      if p = "Default" && ext = "abcdefgh" && v = "1.2.3" then
        some (some { name := "My Ext", version := "1.2.3", defaultLocale := "" })
      else none,
    locales := fun _ _ _ => { ok := false, dirs := [], load := fun _ => none } }

/-- A locale root with no `_locales` directory at all. -/
def c8Fs : LocaleFS := { ok := false, dirs := [], load := fun _ => none }

/-- Two extensions with distinct `(ID, Profile, Version)` triples. -/
def c2E1 : Extension :=
  { name := "Alpha", version := "1.0", id := "aaa", enabled := true,
    browser := "Chrome", profile := "Default" }

def c2E2 : Extension :=
  { name := "Beta", version := "2.0", id := "bbb", enabled := false,
    browser := "Chrome", profile := "Profile 1" }

/-- A pre-existing cached row (an earlier snapshot). -/
def c6Row : Row :=
  mkRow 1 { name := "Old", version := "0.1", id := "old", enabled := true,
            browser := "Chrome", profile := "Default" }

def c6E : Extension :=
  { name := "New", version := "1.0", id := "nnn", enabled := true,
    browser := "Chrome", profile := "Default" }

/-- Same `(ID, Profile, Version)` triple as `c6E`, different field values —
inserting both violates the primary key. -/
def c6Edup : Extension :=
  { name := "Other", version := "1.0", id := "nnn", enabled := false,
    browser := "Chrome", profile := "Default" }

theorem enLoop_eq_findSome (fs : LocaleFS) (d orig lower : String) (locs : List String)
    (h : ∀ loc ∈ locs, loc = d → (fs.load loc).bind (fun t => lookup2 t orig lower) = none) :
    enLoop fs d orig lower locs
      = locs.findSome? (fun loc => (fs.load loc).bind (fun t => lookup2 t orig lower)) := by
  induction locs with
  | nil => rfl
  | cons loc rest ih =>
    rw [List.findSome?_cons]
    by_cases hd : loc = d
    · rw [enLoop, if_pos hd, h loc (by simp) hd]
      exact ih (fun l hl hld => h l (by simp [hl]) hld)
    · rw [enLoop, if_neg hd]
      cases hfl : (fs.load loc).bind (fun t => lookup2 t orig lower) with
      | some v => simp [hfl]
      | none => simp [hfl]; exact ih (fun l hl hld => h l (by simp [hl]) hld)

theorem othersLoop_eq_findSome (fs : LocaleFS) (d orig lower : String)
    (ds : List DirEntry) :
    othersLoop fs d orig lower ds
      = ds.findSome? (fun e =>
          if !e.isDir || e.name = d || e.name = "en" || e.name = "en_US" then none
          else (fs.load e.name).bind (fun t => lookup2 t orig lower)) := by
  induction ds with
  | nil => rfl
  | cons e rest ih =>
    simp only [List.findSome?_cons]
    rw [othersLoop]
    by_cases hskip : (!e.isDir || e.name = d || e.name = "en" || e.name = "en_US") = true
    · rw [if_pos hskip, if_pos hskip]
      exact ih
    · rw [if_neg hskip, if_neg hskip]
      cases hfl : (fs.load e.name).bind (fun t => lookup2 t orig lower) with
      | some v => rfl
      | none => exact ih

theorem resolveMessage_eq_specTiered (msg : String) (fs : LocaleFS) (d : String) :
    resolveMessage msg fs d = specTieredResolve msg fs d := by
  simp only [resolveMessage, specTieredResolve, msgKeyOf]
  generalize goTrimTrailing (goTrimLeading msg "__MSG_") "__" = ko
  generalize goToLower ko = kl
  cases hok : fs.ok with
  | false => simp
  | true =>
    simp only [hok, Bool.not_true, Bool.false_eq_true, if_false]
    have hdef : specDefaultTier fs d ko kl
        = (if d ≠ "" then (fs.load d).bind (fun t => lookup2 t ko kl) else none) := by
      unfold specDefaultTier
      by_cases hd : d = "" <;> simp [hd]
    rw [hdef]
    cases hsc : (if d ≠ "" then (fs.load d).bind (fun t => lookup2 t ko kl) else none) with
    | some v => rfl
    | none =>
      have hen : enLoop fs d ko kl ["en", "en_US"]
          = specEnglishTier fs ko kl := by
        unfold specEnglishTier
        apply enLoop_eq_findSome
        intro loc hloc hld
        have hne : loc ≠ "" := by
          intro h0
          rw [h0] at hloc
          simp at hloc
        rw [← hld] at hsc
        rw [if_pos hne] at hsc
        exact hsc
      rw [hen]
      cases hsen : specEnglishTier fs ko kl with
      | some v => rfl
      | none =>
        rw [othersLoop_eq_findSome]
        show _ = (specOthersTier fs d ko kl).getD ko
        unfold specOthersTier
        cases (fs.dirs.findSome? fun e =>
            if !e.isDir || e.name = d || e.name = "en" || e.name = "en_US" then none
            else (fs.load e.name).bind (fun t => lookup2 t ko kl)) with
        | some v => rfl
        | none => rfl

theorem resolveMessage_default_hit (msg : String) (fs : LocaleFS) (d : String)
    (t : List (String × String)) (v : String)
    (hok : fs.ok = true) (hd : d ≠ "") (hload : fs.load d = some t)
    (hkey : lookupMsg t (msgKeyOf msg) = some v) :
    resolveMessage msg fs d = v := by
  simp only [msgKeyOf] at hkey
  simp only [resolveMessage, hok, Bool.not_true, Bool.false_eq_true, if_false]
  rw [if_pos hd, hload]
  simp only [Option.some_bind]
  unfold lookup2
  rw [hkey]

/-! ### Firefox scanner lemmas -/

theorem scanFirefoxProfiles_ok (browser basePath : String) (fs : FirefoxFS)
    (ps : List String) (h : ∀ p ∈ ps, profileReadable basePath fs p = true) :
    scanFirefoxProfiles browser basePath fs ps
      = .ok (ps.flatMap (profileAddonRecords browser basePath fs)) := by
  induction ps with
  | nil => rfl
  | cons p rest ih =>
    have hp := h p (by simp)
    have hrest : ∀ q ∈ rest, profileReadable basePath fs q = true :=
      fun q hq => h q (by simp [hq])
    unfold profileReadable at hp
    cases hj : fs.extJson (resolveProfilePath basePath p) with
    | missing =>
      simp only [scanFirefoxProfiles, hj, List.flatMap_cons]
      rw [ih hrest]
      simp [profileAddonRecords, hj]
    | badRead => rw [hj] at hp; simp at hp
    | badParse => rw [hj] at hp; simp at hp
    | ok addons =>
      simp only [scanFirefoxProfiles, hj, List.flatMap_cons]
      rw [ih hrest]

theorem firefoxScanMulti_ok (browser basePath : String) (fs : FirefoxFS)
    (content : String)
    (hbe : fs.baseExists = true) (hini : fs.ini = some content)
    (h : ∀ p ∈ profilesOf content, profileReadable basePath fs p = true) :
    firefoxScanMulti browser basePath fs
      = .ok ((profilesOf content).flatMap (profileAddonRecords browser basePath fs)) := by
  unfold firefoxScanMulti
  rw [hbe, hini]
  exact scanFirefoxProfiles_ok browser basePath fs _ h

theorem profileAddonRecords_fields (browser basePath : String) (fs : FirefoxFS)
    (p : String) (e : Extension)
    (he : e ∈ profileAddonRecords browser basePath fs p) :
    e.browser = browser ∧ e.profile = baseName (resolveProfilePath basePath p) := by
  unfold profileAddonRecords at he
  cases hj : fs.extJson (resolveProfilePath basePath p) with
  | ok addons =>
    rw [hj] at he
    rcases List.mem_map.mp he with ⟨a, _, rfl⟩
    exact ⟨rfl, rfl⟩
  | missing => rw [hj] at he; simp at he
  | badRead => rw [hj] at he; simp at he
  | badParse => rw [hj] at he; simp at he

theorem parseIniProfiles_eq_annotate (lines : List String) :
    ∀ cur, parseIniProfiles lines cur
      = (annotateLines lines cur).filterMap pathOfAnnotated := by
  induction lines with
  | nil => intro cur; rfl
  | cons l ls ih =>
    intro cur
    simp only [parseIniProfiles, annotateLines]
    by_cases hh : isSectionHeader (goTrimSpace l) = true
    · simp only [hh, if_true, ih]
    · simp only [Bool.not_eq_true] at hh
      simp only [hh, Bool.false_eq_true, if_false, List.filterMap_cons]
      by_cases hc : (goHasPrefix (goTrimSpace l) "Path=" && cur ≠ "") = true
      · rw [if_pos hc]
        have : pathOfAnnotated (cur, goTrimSpace l) = some (goTrimLeading (goTrimSpace l) "Path=") := by
          unfold pathOfAnnotated
          simp only [Bool.and_eq_true, decide_eq_true_eq] at hc
          simp [hc.1, hc.2]
        rw [this, ih]
      · rw [if_neg hc]
        have : pathOfAnnotated (cur, goTrimSpace l) = none := by
          unfold pathOfAnnotated
          simp only [Bool.and_eq_true, decide_eq_true_eq, not_and] at hc
          by_cases hs : goHasPrefix (goTrimSpace l) "Path=" = true
          · have := hc hs
            simp [hs, this]
          · simp [hs]
        rw [this, ih]

set_option maxHeartbeats 1000000 in
theorem markedSectionPath_mem_profiles (lines : List String) (p : String)
    (h : markedSectionPath lines = some p) : p ∈ parseIniProfiles lines "" := by
  unfold markedSectionPath at h
  cases hq : (annotateLines lines "").find? (fun q => q.1 ≠ "" && q.2 = "Default=1") with
  | none => rw [hq] at h; simp at h
  | some q =>
    rw [hq] at h
    have hqprop := List.find?_some hq
    simp only [Bool.and_eq_true, decide_eq_true_eq] at hqprop
    rcases List.exists_of_findSome?_eq_some h with ⟨r, hrmem, hrf⟩
    by_cases hc : (r.1 = q.1 && goHasPrefix r.2 "Path=") = true
    · rw [if_pos hc] at hrf
      simp only [Bool.and_eq_true, decide_eq_true_eq] at hc
      have hp : p = goTrimLeading r.2 "Path=" := by
        injection hrf with h1
        exact h1.symm
      rw [parseIniProfiles_eq_annotate]
      apply List.mem_filterMap.mpr
      refine ⟨r, hrmem, ?_⟩
      unfold pathOfAnnotated
      have hr1 : r.1 ≠ "" := by rw [hc.1]; exact hqprop.1
      simp [hc.2, hr1, hp]
    · rw [if_neg hc] at hrf
      cases hrf

/-! ### Chromium scanner lemmas -/

theorem scanProfileList_ok (fs : ChromiumFS) (browser : String) (es : List DirEntry)
    (h : ∀ e ∈ es, e.isDir = true → qualifiesProfile e.name = true →
      fs.extDirExists e.name = true → (fs.extDirs e.name).isSome = true) :
    scanProfileList fs browser es
      = .ok (es.flatMap (profilePureRecords fs browser)) := by
  induction es with
  | nil => rfl
  | cons e rest ih =>
    have hrest : ∀ q ∈ rest, q.isDir = true → qualifiesProfile q.name = true →
        fs.extDirExists q.name = true → (fs.extDirs q.name).isSome = true :=
      fun q hq => h q (by simp [hq])
    rw [scanProfileList, List.flatMap_cons]
    by_cases h1 : (!e.isDir || !qualifiesProfile e.name) = true
    · rw [if_pos h1, ih hrest]
      have : profilePureRecords fs browser e = [] := by
        unfold profilePureRecords
        rcases Bool.or_eq_true_iff.mp h1 with h2 | h2 <;> simp [h2]
      rw [this, List.nil_append]
    · rw [if_neg h1]
      simp only [Bool.or_eq_true, Bool.not_eq_true', not_or, Bool.not_eq_false] at h1
      by_cases h2 : (!fs.extDirExists e.name) = true
      · simp only [Bool.not_eq_true'] at h2
        rw [if_pos (by simp [h2]), ih hrest]
        have : profilePureRecords fs browser e = [] := by
          unfold profilePureRecords
          simp [h2]
        rw [this, List.nil_append]
      · simp only [Bool.not_eq_true', Bool.not_eq_false] at h2
        rw [if_neg (by simp [h2])]
        rcases Option.isSome_iff_exists.mp (h e (by simp) h1.1 h1.2 h2) with ⟨ds, hds⟩
        rw [hds, ih hrest]
        have : profilePureRecords fs browser e
            = ds.flatMap (extRecords fs browser (chromiumProfileName fs e.name) e.name) := by
          unfold profilePureRecords
          simp [h1.1, h1.2, h2, hds]
        rw [this]

theorem versionRecords_length (fs : ChromiumFS) (browser pname pdir ext : String)
    (v : DirEntry) :
    (versionRecords fs browser pname pdir ext v).length
      = if versionOk fs pdir ext v then 1 else 0 := by
  unfold versionRecords versionOk
  by_cases hv : v.isDir = true
  · simp only [hv, Bool.not_true, Bool.false_eq_true, if_false, Bool.true_and]
    cases fs.manifests pdir ext v.name with
    | none => simp
    | some m => cases m <;> simp
  · simp only [Bool.not_eq_true] at hv
    simp [hv]

theorem flatMap_versionRecords_length (fs : ChromiumFS)
    (browser pname pdir ext : String) (vs : List DirEntry) :
    (vs.flatMap (versionRecords fs browser pname pdir ext)).length
      = vs.countP (versionOk fs pdir ext) := by
  induction vs with
  | nil => rfl
  | cons v rest ih =>
    rw [List.flatMap_cons, List.length_append, List.countP_cons, ih,
      versionRecords_length]
    by_cases hv : versionOk fs pdir ext v = true <;> simp [hv]
    omega

theorem extRecords_length (fs : ChromiumFS) (browser pname pdir : String)
    (d : DirEntry) :
    (extRecords fs browser pname pdir d).length = extOkCount fs pdir d := by
  unfold extRecords extOkCount
  by_cases hd : d.isDir = true
  · simp only [hd, Bool.not_true, Bool.false_eq_true, if_false]
    cases fs.versionDirs pdir d.name with
    | none => rfl
    | some vs => exact flatMap_versionRecords_length fs browser pname pdir d.name vs
  · simp only [Bool.not_eq_true] at hd
    simp [hd]

theorem flatMap_extRecords_length (fs : ChromiumFS) (browser pname pdir : String)
    (ds : List DirEntry) :
    (ds.flatMap (extRecords fs browser pname pdir)).length
      = (ds.map (extOkCount fs pdir)).sum := by
  induction ds with
  | nil => rfl
  | cons d rest ih =>
    rw [List.flatMap_cons, List.length_append, List.map_cons, List.sum_cons, ih,
      extRecords_length]

theorem profilePureRecords_length (fs : ChromiumFS) (browser : String)
    (e : DirEntry) :
    (profilePureRecords fs browser e).length = profileOkCount fs e := by
  unfold profilePureRecords profileOkCount
  by_cases h1 : (!e.isDir || !qualifiesProfile e.name || !fs.extDirExists e.name) = true
  · simp [h1]
  · rw [if_neg h1, if_neg h1]
    cases fs.extDirs e.name with
    | none => rfl
    | some ds =>
      exact flatMap_extRecords_length fs browser (chromiumProfileName fs e.name) e.name ds

theorem flatMap_profilePure_length (fs : ChromiumFS) (browser : String)
    (es : List DirEntry) :
    (es.flatMap (profilePureRecords fs browser)).length = treeOkCount fs es := by
  unfold treeOkCount
  induction es with
  | nil => rfl
  | cons e rest ih =>
    rw [List.flatMap_cons, List.length_append, List.map_cons, List.sum_cons, ih,
      profilePureRecords_length]

theorem chromiumScan_ok (browser : String) (fs : ChromiumFS) (es : List DirEntry)
    (hbe : fs.baseExists = true) (hpe : fs.profileEntries = some es)
    (h : ∀ e ∈ es, e.isDir = true → qualifiesProfile e.name = true →
      fs.extDirExists e.name = true → (fs.extDirs e.name).isSome = true) :
    chromiumScan browser fs = .ok (es.flatMap (profilePureRecords fs browser)) := by
  unfold chromiumScan
  rw [hbe, hpe]
  exact scanProfileList_ok fs browser es h

theorem versionRecords_mem (fs : ChromiumFS) (browser pname pdir ext : String)
    (v : DirEntry) (e : Extension) (he : e ∈ versionRecords fs browser pname pdir ext v) :
    e.browser = browser ∧ e.id = ext ∧ e.profile = pname := by
  unfold versionRecords at he
  by_cases hv : v.isDir = true
  · simp only [hv, Bool.not_true, Bool.false_eq_true, if_false] at he
    cases hm : fs.manifests pdir ext v.name with
    | none => rw [hm] at he; simp at he
    | some m =>
      cases m with
      | none => rw [hm] at he; simp at he
      | some mm =>
        rw [hm] at he
        rcases List.mem_singleton.mp he with rfl
        exact ⟨rfl, rfl, rfl⟩
  · simp only [Bool.not_eq_true] at hv
    simp [hv] at he

theorem extRecords_mem (fs : ChromiumFS) (browser pname pdir : String)
    (d : DirEntry) (e : Extension) (he : e ∈ extRecords fs browser pname pdir d) :
    e.browser = browser ∧ e.id = d.name ∧ e.profile = pname := by
  unfold extRecords at he
  by_cases hd : d.isDir = true
  · simp only [hd, Bool.not_true, Bool.false_eq_true, if_false] at he
    cases hm : fs.versionDirs pdir d.name with
    | none => rw [hm] at he; simp at he
    | some vs =>
      rw [hm] at he
      rcases List.mem_flatMap.mp he with ⟨v, _, hv⟩
      exact versionRecords_mem fs browser pname pdir d.name v e hv
  · simp only [Bool.not_eq_true] at hd
    simp [hd] at he

theorem profilePureRecords_mem (fs : ChromiumFS) (browser : String)
    (ent : DirEntry) (e : Extension) (he : e ∈ profilePureRecords fs browser ent) :
    e.browser = browser ∧
      ∃ d ∈ (fs.extDirs ent.name).getD [], e.id = d.name := by
  unfold profilePureRecords at he
  by_cases h1 : (!ent.isDir || !qualifiesProfile ent.name || !fs.extDirExists ent.name) = true
  · simp [h1] at he
  · rw [if_neg h1] at he
    cases hds : fs.extDirs ent.name with
    | none => rw [hds] at he; simp at he
    | some ds =>
      rw [hds] at he
      rcases List.mem_flatMap.mp he with ⟨d, hdmem, hd⟩
      rcases extRecords_mem fs browser (chromiumProfileName fs ent.name) ent.name d e hd
        with ⟨hb, hid, _⟩
      exact ⟨hb, d, by simp [hds, hdmem], hid⟩

theorem scanProfileList_mem (fs : ChromiumFS) (browser : String)
    (es : List DirEntry) (l : List Extension) (e : Extension)
    (hs : scanProfileList fs browser es = .ok l) (he : e ∈ l) :
    ∃ ent ∈ es, e ∈ profilePureRecords fs browser ent := by
  induction es generalizing l with
  | nil =>
    injection hs with hl
    rw [← hl] at he
    cases he
  | cons ent rest ih =>
    rw [scanProfileList] at hs
    by_cases h1 : (!ent.isDir || !qualifiesProfile ent.name) = true
    · rw [if_pos h1] at hs
      rcases ih l hs he with ⟨q, hq, hqe⟩
      exact ⟨q, by simp [hq], hqe⟩
    · rw [if_neg h1] at hs
      by_cases h2 : (!fs.extDirExists ent.name) = true
      · rw [if_pos h2] at hs
        rcases ih l hs he with ⟨q, hq, hqe⟩
        exact ⟨q, by simp [hq], hqe⟩
      · rw [if_neg h2] at hs
        cases hds : fs.extDirs ent.name with
        | none => rw [hds] at hs; cases hs
        | some ds =>
          rw [hds] at hs
          cases hr : scanProfileList fs browser rest with
          | error msg => rw [hr] at hs; cases hs
          | ok restExts =>
            rw [hr] at hs
            injection hs with hl
            rw [← hl] at he
            rcases List.mem_append.mp he with hin | hin
            · refine ⟨ent, by simp, ?_⟩
              unfold profilePureRecords
              simp only [Bool.or_eq_true, Bool.not_eq_true', not_or,
                Bool.not_eq_false] at h1 h2
              rw [if_neg (by simp [h1.1, h1.2, h2]), hds]
              exact hin
            · rcases ih restExts hr hin with ⟨q, hq, hqe⟩
              exact ⟨q, by simp [hq], hqe⟩

theorem scanFirefoxProfiles_mem_browser (browser basePath : String)
    (fs : FirefoxFS) (ps : List String) (l : List Extension) (e : Extension)
    (hs : scanFirefoxProfiles browser basePath fs ps = .ok l) (he : e ∈ l) :
    e.browser = browser := by
  induction ps generalizing l with
  | nil =>
    injection hs with hl
    rw [← hl] at he
    cases he
  | cons p rest ih =>
    rw [scanFirefoxProfiles] at hs
    cases hj : fs.extJson (resolveProfilePath basePath p) with
    | missing => rw [hj] at hs; exact ih l hs he
    | badRead => rw [hj] at hs; cases hs
    | badParse => rw [hj] at hs; cases hs
    | ok addons =>
      rw [hj] at hs
      cases hr : scanFirefoxProfiles browser basePath fs rest with
      | error msg => rw [hr] at hs; cases hs
      | ok restExts =>
        rw [hr] at hs
        injection hs with hl
        rw [← hl] at he
        rcases List.mem_append.mp he with hin | hin
        · exact (profileAddonRecords_fields browser basePath fs p e hin).1
        · exact ih restExts hr hin

/-! ### Cache lemmas -/

theorem hasTriple_iff (t : List Row) (r : Row) :
    hasTriple t r = true ↔ ∃ s ∈ t, rowTriple s = rowTriple r := by
  unfold hasTriple rowTriple
  simp [List.any_eq_true, Prod.ext_iff, and_assoc]

theorem insertAll_ok_append (rs acc t : List Row) (h : insertAll rs acc = .ok t) :
    t = acc ++ rs := by
  induction rs generalizing acc with
  | nil =>
    injection h with h1
    rw [← h1]
    simp
  | cons r rest ih =>
    rw [insertAll] at h
    by_cases hc : hasTriple acc r = true
    · rw [if_pos hc] at h
      cases h
    · rw [if_neg hc] at h
      rw [ih (acc ++ [r]) h]
      simp

theorem insertAll_ok_of_nodup (rs : List Row) (hnd : (rs.map rowTriple).Nodup) :
    ∀ acc, (∀ r ∈ rs, hasTriple acc r = false) →
      insertAll rs acc = .ok (acc ++ rs) := by
  induction rs with
  | nil => intro acc _; simp [insertAll]
  | cons r rest ih =>
    intro acc hdisj
    rw [List.map_cons, List.nodup_cons] at hnd
    rw [insertAll, if_neg (by rw [hdisj r (by simp)]; simp)]
    have hdisj' : ∀ s ∈ rest, hasTriple (acc ++ [r]) s = false := by
      intro s hs
      have h1 : hasTriple acc s = false := hdisj s (by simp [hs])
      have : ¬ (hasTriple (acc ++ [r]) s = true) := by
        rw [hasTriple_iff]
        rintro ⟨q, hq, hqe⟩
        rcases List.mem_append.mp hq with hqa | hqr
        · exact absurd ((hasTriple_iff acc s).mpr ⟨q, hqa, hqe⟩) (by rw [h1]; simp)
        · rcases List.mem_singleton.mp hqr with rfl
          apply hnd.1
          rw [hqe]
          exact List.mem_map_of_mem rowTriple hs
      exact Bool.eq_false_iff.mpr this
    rw [ih hnd.2 (acc ++ [r]) hdisj']
    simp

theorem dbUpdate_ok (t₀ : List Row) (exts : List Extension) (now : Int)
    (hnd : (exts.map extTriple).Nodup) :
    dbUpdateExtensions t₀ exts now = (exts.map (mkRow now), none) := by
  unfold dbUpdateExtensions
  have hmap : (exts.map (mkRow now)).map rowTriple = exts.map extTriple := by
    rw [List.map_map]
    rfl
  rw [insertAll_ok_of_nodup (exts.map (mkRow now)) (by rw [hmap]; exact hnd) []
    (fun r _ => rfl)]
  simp

theorem rowToExt_mkRow (now : Int) (e : Extension) : rowToExt (mkRow now e) = e := by
  cases e with
  | mk n v i en b p => cases en <;> rfl

theorem maxTs_uniform (rows : List Row) (now : Int)
    (h : ∀ r ∈ rows, r.timestamp = now) :
    maxTs rows = if rows = [] then none else some now := by
  induction rows with
  | nil => rfl
  | cons r rest ih =>
    have ih' := ih (fun q hq => h q (by simp [hq]))
    rw [maxTs, ih']
    by_cases he : rest = []
    · simp [he, h r (by simp)]
    · simp [he, h r (by simp)]

theorem maxTs_mem (rows : List Row) (m : Int) (h : maxTs rows = some m) :
    ∃ r ∈ rows, r.timestamp = m := by
  induction rows generalizing m with
  | nil => cases h
  | cons r rest ih =>
    rw [maxTs] at h
    injection h with h1
    cases hrest : maxTs rest with
    | none =>
      rw [hrest] at h1
      exact ⟨r, by simp, h1⟩
    | some m2 =>
      rw [hrest] at h1
      by_cases hc : m2 ≤ r.timestamp
      · refine ⟨r, by simp, ?_⟩
        rw [← h1]
        exact (max_eq_left hc).symm
      · push_neg at hc
        rcases ih m2 hrest with ⟨q, hq, hqt⟩
        refine ⟨q, by simp [hq], ?_⟩
        rw [hqt, ← h1]
        exact (max_eq_right (le_of_lt hc)).symm

theorem dbGet_after_write (exts : List Extension) (now : Int) :
    dbGetExtensions (exts.map (mkRow now)) now
      = if exts = [] then none else some exts := by
  unfold dbGetExtensions
  have hts : ∀ r ∈ exts.map (mkRow now), r.timestamp = now := by
    intro r hr
    rcases List.mem_map.mp hr with ⟨e, _, rfl⟩
    rfl
  rw [maxTs_uniform _ now hts]
  have hnn : (exts.map (mkRow now) = []) ↔ (exts = []) := by
    cases exts <;> simp
  by_cases he : exts = []
  · subst he
    simp
  · rw [if_neg (fun hh => he (hnn.mp hh)), if_neg he]
    have hsub : ¬ (now - now > 1800) := by omega
    have hfil : (exts.map (mkRow now)).filter (fun r => r.timestamp = now)
        = exts.map (mkRow now) :=
      List.filter_eq_self.mpr (fun r hr => by simp [hts r hr])
    have hcomp : rowToExt ∘ mkRow now = id := funext (rowToExt_mkRow now)
    simp [hsub, hfil, List.map_map, hcomp]

/-! ## Claim theorems -/

/-- **C1.** For every Firefox profile registry listing its profiles via
`Path=` entries, the aggregating Firefox scan (browsers.go:254-350) returns
the concatenation, in registry order, of the addon records of *all* listed
profiles — not only a default or first one — and every record's `Profile`
field is the base name of the originating profile's resolved directory and
its `Browser` field the scanned browser's name.  The hypotheses say only that
the profiles root exists, `profiles.ini` was readable, and no profile's addon
registry hits a non-`IsNotExist` read error or a parse failure (either of
which aborts the scan); a merely missing registry is covered and contributes
zero records. -/
theorem claim_C1_firefox_scans_all_profiles (browser basePath : String)
    (fs : FirefoxFS) (content : String)
    (hbe : fs.baseExists = true) (hini : fs.ini = some content)
    (hread : ∀ p ∈ profilesOf content, profileReadable basePath fs p = true) :
    firefoxScanMulti browser basePath fs
      = .ok ((profilesOf content).flatMap (profileAddonRecords browser basePath fs)) ∧
    ∀ p ∈ profilesOf content, ∀ e ∈ profileAddonRecords browser basePath fs p,
      e.browser = browser ∧ e.profile = baseName (resolveProfilePath basePath p) :=
  ⟨firefoxScanMulti_ok browser basePath fs content hbe hini hread,
   fun p _ e he => profileAddonRecords_fields browser basePath fs p e he⟩

/-- Witness for C1: a two-profile registry yields both profiles' records in
one flat list, each tagged with its own profile directory name. -/
theorem claim_C1_firefox_scans_all_profiles_witness :
    firefoxScanMulti "Firefox" c1Base c1Fs
      = .ok ((profilesOf c1Ini).flatMap (profileAddonRecords "Firefox" c1Base c1Fs)) ∧
    (profilesOf c1Ini).flatMap (profileAddonRecords "Firefox" c1Base c1Fs)
      = [{ name := "uBlock Origin", version := "1.44.4", id := "uBlock0@raymondhill.net",
           enabled := true, browser := "Firefox", profile := "abc.default" },
         { name := "Example Addon", version := "2.0", id := "addon@example.com",
           enabled := false, browser := "Firefox", profile := "work.prof" }] :=
  ⟨(claim_C1_firefox_scans_all_profiles "Firefox" c1Base c1Fs c1Ini rfl rfl
      (by decide)).1,
   by decide⟩

/-- **C3.** The resolver equals the spec's ordered tier chain (default locale,
then `en`, then `en_US`, then the remaining locale directories in enumeration
order, then the bare key) — so each later tier matters only when every
earlier one failed — and whenever the declared default locale's table holds
the key under its original case, resolution returns that table's text; the
latter holds for *every* locale filesystem agreeing on the default locale's
table, so no English and no other locale table influences the result. -/
theorem claim_C3_default_locale_short_circuits :
    (∀ msg fs d, resolveMessage msg fs d = specTieredResolve msg fs d) ∧
    (∀ msg (fs : LocaleFS) (d : String) t v, fs.ok = true → d ≠ "" →
      fs.load d = some t → lookupMsg t (msgKeyOf msg) = some v →
      resolveMessage msg fs d = v) :=
  ⟨resolveMessage_eq_specTiered, resolveMessage_default_hit⟩

/-- Witness for C3: with default locale `de` holding `Name`, resolution
returns the German text even though `en` holds the same key. -/
theorem claim_C3_default_locale_short_circuits_witness :
    resolveMessage "__MSG_Name__" c3Fs "de" = "Hallo Welt" ∧
    resolveMessage "__MSG_Name__" c3Fs "de" = specTieredResolve "__MSG_Name__" c3Fs "de" :=
  ⟨claim_C3_default_locale_short_circuits.2 "__MSG_Name__" c3Fs "de"
      [("Name", "Hallo Welt")] "Hallo Welt" rfl (by decide) rfl (by decide),
   claim_C3_default_locale_short_circuits.1 "__MSG_Name__" c3Fs "de"⟩

/-- **C4.** When the registry's `Default=1` mark sits in any section — in
particular a non-first one — the profile whose `Path=` belongs to that marked
section is among the scanned profiles, so its addon records appear in the
scan's output (the aggregating scanner visits every registered profile, not
merely the first `Path=` entry). -/
theorem claim_C4_marked_default_is_scanned (browser basePath : String)
    (fs : FirefoxFS) (content p : String)
    (hbe : fs.baseExists = true) (hini : fs.ini = some content)
    (hmarked : markedSectionPath (goSplitChar '\n' content) = some p)
    (hread : ∀ q ∈ profilesOf content, profileReadable basePath fs q = true) :
    ∃ out, firefoxScanMulti browser basePath fs = .ok out ∧
      ∀ e ∈ profileAddonRecords browser basePath fs p, e ∈ out := by
  refine ⟨_, firefoxScanMulti_ok browser basePath fs content hbe hini hread, ?_⟩
  intro e he
  exact List.mem_flatMap.mpr ⟨p, markedSectionPath_mem_profiles _ _ hmarked, he⟩

/-- Witness for C4: `Default=1` sits in the second-listed section, and that
section's profile records (a specific, non-empty list) are in the output. -/
theorem claim_C4_marked_default_is_scanned_witness :
    (∃ out, firefoxScanMulti "Firefox" c4Base c4Fs = .ok out ∧
      ∀ e ∈ profileAddonRecords "Firefox" c4Base c4Fs "marked.prof", e ∈ out) ∧
    profileAddonRecords "Firefox" c4Base c4Fs "marked.prof"
      = [{ name := "Marked", version := "3.1", id := "marked@example.com",
           enabled := true, browser := "Firefox", profile := "marked.prof" }] :=
  ⟨claim_C4_marked_default_is_scanned "Firefox" c4Base c4Fs c4Ini "marked.prof"
      rfl rfl (by decide) (by decide),
   by decide⟩

/-- **C5.** Whenever the user-data directory is listable and the `Extensions`
directory of every candidate profile is listable, the Chromium scan succeeds
(no error, no aborted profile or browser) and returns exactly one record per
version directory whose manifest is readable and parseable: corrupted
(unreadable or unparseable) manifests are skipped per-extension, so ten valid
manifests beside one corrupt one yield exactly ten records (see the witness),
and in general one corrupt manifest among ten valid ones costs exactly that
one record, never all of them. -/
theorem claim_C5_corrupt_manifests_skipped (browser : String) (fs : ChromiumFS)
    (es : List DirEntry)
    (hbe : fs.baseExists = true) (hpe : fs.profileEntries = some es)
    (hread : ∀ e ∈ es, e.isDir = true → qualifiesProfile e.name = true →
      fs.extDirExists e.name = true → (fs.extDirs e.name).isSome = true) :
    chromiumScan browser fs = .ok (es.flatMap (profilePureRecords fs browser)) ∧
    (es.flatMap (profilePureRecords fs browser)).length = treeOkCount fs es :=
  ⟨chromiumScan_ok browser fs es hbe hpe hread,
   flatMap_profilePure_length fs browser es⟩

/-- Witness for C5: on the 10-valid-plus-1-corrupt tree the scan returns `ok`
with exactly ten records. -/
theorem claim_C5_corrupt_manifests_skipped_witness :
    chromiumScan "Chrome" c5Fs
      = .ok ([{ name := "Default", isDir := true }].flatMap
          (profilePureRecords c5Fs "Chrome")) ∧
    ([{ name := "Default", isDir := true }].flatMap
        (profilePureRecords c5Fs "Chrome")).length = 10 := by
  have h := claim_C5_corrupt_manifests_skipped "Chrome" c5Fs
    [{ name := "Default", isDir := true }] rfl rfl (by decide)
  refine ⟨h.1, ?_⟩
  rw [h.2]
  decide

/-- Counterexample to **C7** as stated: the Firefox scan copies the addon
registry's `id` verbatim, so an addon entry without an `id` yields a returned
record whose `ID` field is empty. -/
theorem claim_C7_counterexample_empty_id :
    firefoxScanMulti "Firefox" "/base" c7FirefoxFs
      = .ok [{ name := "", version := "1.0", id := "", enabled := true,
               browser := "Firefox", profile := "p1" }] ∧
    ({ name := "", version := "1.0", id := "", enabled := true,
       browser := "Firefox", profile := "p1" } : Extension).id = "" :=
  ⟨by decide, rfl⟩

/-- **C7 (amended).** Every record returned by either scan carries the scanned
config's name in `Browser` (non-empty for the three shipped configs); every
Chromium record's `ID` is an extension directory entry's name, hence non-empty
whenever directory names are (always, on a real filesystem); a Firefox
record's `ID` copies the addon registry and may be empty. -/
theorem claim_C7_browser_and_id_provenance :
    (∀ browser (fs : ChromiumFS) es l e, fs.profileEntries = some es →
      chromiumScan browser fs = .ok l → e ∈ l →
      e.browser = browser ∧
      ((∀ ent ∈ es, ∀ d ∈ (fs.extDirs ent.name).getD [], d.name ≠ "") → e.id ≠ "")) ∧
    (∀ browser basePath (fs : FirefoxFS) l e,
      firefoxScanMulti browser basePath fs = .ok l → e ∈ l →
      e.browser = browser) ∧
    (∀ c ∈ inventoryConfigs, c.name ≠ "") := by
  refine ⟨?_, ?_, by decide⟩
  · intro browser fs es l e hpe hs he
    unfold chromiumScan at hs
    cases hbb : fs.baseExists with
    | false => rw [hbb] at hs; simp at hs
    | true =>
      rw [hbb] at hs
      simp only [Bool.not_true, Bool.false_eq_true, if_false] at hs
      rw [hpe] at hs
      rcases scanProfileList_mem fs browser es l e hs he with ⟨ent, hentmem, hent⟩
      rcases profilePureRecords_mem fs browser ent e hent with ⟨hb, d, hdmem, hid⟩
      refine ⟨hb, fun hnames => ?_⟩
      rw [hid]
      exact hnames ent hentmem d hdmem
  · intro browser basePath fs l e hs he
    unfold firefoxScanMulti at hs
    cases hbb : fs.baseExists with
    | false => rw [hbb] at hs; simp at hs
    | true =>
      rw [hbb] at hs
      simp only [Bool.not_true, Bool.false_eq_true, if_false] at hs
      cases hini : fs.ini with
      | none => rw [hini] at hs; cases hs
      | some content =>
        rw [hini] at hs
        exact scanFirefoxProfiles_mem_browser browser basePath fs _ l e hs he

/-- Witness for the amended C7: a concrete Chromium record has the scanned
browser name and a non-empty directory-derived ID, and a concrete Firefox
record carries the scanned browser name. -/
theorem claim_C7_browser_and_id_provenance_witness :
    ({ name := "My Ext", version := "1.2.3", id := "abcdefgh", enabled := true,
       browser := "Chrome", profile := "Person 1" } : Extension).browser = "Chrome" ∧
    ({ name := "My Ext", version := "1.2.3", id := "abcdefgh", enabled := true,
       browser := "Chrome", profile := "Person 1" } : Extension).id ≠ "" ∧
    ({ name := "", version := "1.0", id := "", enabled := true,
       browser := "Firefox", profile := "p1" } : Extension).browser = "Firefox" := by
  have hc := claim_C7_browser_and_id_provenance.1 "Chrome" c7ChromiumFs
    [{ name := "Default", isDir := true }]
    [{ name := "My Ext", version := "1.2.3", id := "abcdefgh", enabled := true,
       browser := "Chrome", profile := "Person 1" }]
    { name := "My Ext", version := "1.2.3", id := "abcdefgh", enabled := true,
      browser := "Chrome", profile := "Person 1" }
    rfl (by decide) (by decide)
  have hf := claim_C7_browser_and_id_provenance.2.1 "Firefox" "/base" c7FirefoxFs
    [{ name := "", version := "1.0", id := "", enabled := true,
       browser := "Firefox", profile := "p1" }]
    { name := "", version := "1.0", id := "", enabled := true,
      browser := "Firefox", profile := "p1" }
    (by decide) (by decide)
  exact ⟨hc.1, hc.2 (by decide), hf⟩

/-- Counterexample to **C8** as stated: an input with the `__MSG_` prefix but
no trailing `__` is *not* returned unchanged — the gate checks only the
prefix, and `resolveMessage` strips it and treats the rest as a key,
returning the bare key when nothing resolves. -/
theorem claim_C8_counterexample_prefix_only :
    resolveExtensionName "__MSG_appName" c8Fs "" = "appName" ∧
    ("appName" : String) ≠ "__MSG_appName" :=
  ⟨by decide, by decide⟩

/-- **C8 (amended).** An input *without* the `__MSG_` prefix is returned
unchanged; an input with the prefix — even without the trailing `__` — is
handed to `resolveMessage`, which strips the prefix (and a trailing `__` when
present) and resolves the remainder as a key. -/
theorem claim_C8_non_placeholder_unchanged :
    (∀ name (fs : LocaleFS) d, goHasPrefix name "__MSG_" = false →
      resolveExtensionName name fs d = name) ∧
    (∀ name (fs : LocaleFS) d, goHasPrefix name "__MSG_" = true →
      resolveExtensionName name fs d = resolveMessage name fs d) := by
  constructor
  · intro name fs d h
    simp [resolveExtensionName, h]
  · intro name fs d h
    simp [resolveExtensionName, h]

/-- Witness for the amended C8 at concrete inputs. -/
theorem claim_C8_non_placeholder_unchanged_witness :
    resolveExtensionName "uBlock Origin" c8Fs "" = "uBlock Origin" ∧
    resolveExtensionName "__MSG_appName" c8Fs ""
      = resolveMessage "__MSG_appName" c8Fs "" :=
  ⟨claim_C8_non_placeholder_unchanged.1 "uBlock Origin" c8Fs "" (by decide),
   claim_C8_non_placeholder_unchanged.2 "__MSG_appName" c8Fs "" (by decide)⟩

/-- Counterexample to **C9** as stated: the current `main.go` has no
validation branch — for the unrecognized name `opera` it proceeds into the
cache-and-scan loop rather than surfacing a validation error (though no
browser config matches, so no filesystem scan happens either). -/
theorem claim_C9_counterexample_no_validation :
    headPrescan "opera" = MainPhase.proceed ["opera"] ∧
    headPrescan "opera" ≠ MainPhase.validationError ∧
    selectConfigs "opera" = [] :=
  ⟨by decide, by decide, by decide⟩

/-- **C9 (amended).** For a non-empty browser name recognized by neither
scanner config (not chrome/edge/firefox case-insensitively): the current
entry point proceeds without any validation error, but the config filter
matches nothing, so no browser is scanned; the earlier standalone CLI did
surface the validation error before scanning. -/
theorem claim_C9_unrecognized_name_scans_nothing (b : String)
    (hne : b ≠ "") (hinvalid : legacyValidBrowser b = false) :
    headPrescan b = .proceed [b] ∧ selectConfigs b = [] ∧
    legacyPrescan b = .validationError := by
  have hb1 : goToLower b ≠ "chrome" := by
    intro h
    unfold legacyValidBrowser at hinvalid
    rw [h] at hinvalid
    exact absurd hinvalid (by decide)
  have hb2 : goToLower b ≠ "edge" := by
    intro h
    unfold legacyValidBrowser at hinvalid
    rw [h] at hinvalid
    exact absurd hinvalid (by decide)
  have hb3 : goToLower b ≠ "firefox" := by
    intro h
    unfold legacyValidBrowser at hinvalid
    rw [h] at hinvalid
    exact absurd hinvalid (by decide)
  refine ⟨?_, ?_, ?_⟩
  · unfold headPrescan
    rw [if_neg hne]
  · unfold selectConfigs inventoryConfigs
    have h1 : goToLower "Chrome" = "chrome" := by decide
    have h2 : goToLower "Edge" = "edge" := by decide
    have h3 : goToLower "Firefox" = "firefox" := by decide
    have hd0 : (b = "") = False := eq_false hne
    have hd1 : ("chrome" = goToLower b) = False := eq_false (fun h => hb1 h.symm)
    have hd2 : ("edge" = goToLower b) = False := eq_false (fun h => hb2 h.symm)
    have hd3 : ("firefox" = goToLower b) = False := eq_false (fun h => hb3 h.symm)
    simp [List.filter, h1, h2, h3, hd0, hd1, hd2, hd3]
  · unfold legacyPrescan
    rw [if_pos]
    simp [hne, hinvalid]

/-- Witness for the amended C9 at the concrete name `opera`. -/
theorem claim_C9_unrecognized_name_scans_nothing_witness :
    headPrescan "opera" = .proceed ["opera"] ∧ selectConfigs "opera" = [] ∧
    legacyPrescan "opera" = .validationError :=
  claim_C9_unrecognized_name_scans_nothing "opera" (by decide) (by decide)

/-- **C2.** For every extension list with pairwise-distinct
`(ID, Profile, Version)` triples, a cache write commits (no error) and an
immediate read returns exactly the written list — same triples and same
`Name`/`Browser`/`Enabled`/`Profile` values — for a non-empty list as a
genuine snapshot (`some`), for the empty list as the `nil` slice, which is
the same empty set of records Go hands back; and for every
stored table whose rows are all more than 30 minutes old at read time —
regardless of contents — the read returns the rescan signal (`nil`). -/
theorem claim_C2_cache_roundtrip_and_staleness :
    (∀ (t₀ : List Row) (exts : List Extension) (now : Int),
      (exts.map extTriple).Nodup →
      (dbUpdateExtensions t₀ exts now).2 = none ∧
      (dbGetExtensions (dbUpdateExtensions t₀ exts now).1 now).getD [] = exts ∧
      (exts ≠ [] →
        dbGetExtensions (dbUpdateExtensions t₀ exts now).1 now = some exts)) ∧
    (∀ (t : List Row) (now : Int),
      (∀ r ∈ t, now - r.timestamp > 1800) → dbGetExtensions t now = none) := by
  constructor
  · intro t₀ exts now hnd
    rw [dbUpdate_ok t₀ exts now hnd]
    refine ⟨rfl, ?_, ?_⟩
    · show (dbGetExtensions (exts.map (mkRow now)) now).getD [] = exts
      rw [dbGet_after_write]
      by_cases he : exts = []
      · simp [he]
      · simp [he]
    · intro hne
      show dbGetExtensions (exts.map (mkRow now)) now = some exts
      rw [dbGet_after_write, if_neg hne]
  · intro t now hstale
    unfold dbGetExtensions
    cases hm : maxTs t with
    | none => rfl
    | some m =>
      rcases maxTs_mem t m hm with ⟨r, hr, hrt⟩
      have hgt := hstale r hr
      rw [hrt] at hgt
      simp [hgt]

/-- Witness for C2: writing two distinct-triple extensions and reading back
at the same instant returns them; a one-row table read 998999 seconds later
signals rescan. -/
theorem claim_C2_cache_roundtrip_and_staleness_witness :
    ((dbUpdateExtensions [] [c2E1, c2E2] 1000).2 = none ∧
     (dbGetExtensions (dbUpdateExtensions [] [c2E1, c2E2] 1000).1 1000)
       = some [c2E1, c2E2]) ∧
    dbGetExtensions [mkRow 1000 c2E1] 999999 = none :=
  ⟨⟨(claim_C2_cache_roundtrip_and_staleness.1 [] [c2E1, c2E2] 1000 (by decide)).1,
    (claim_C2_cache_roundtrip_and_staleness.1 [] [c2E1, c2E2] 1000
      (by decide)).2.2 (by decide)⟩,
   claim_C2_cache_roundtrip_and_staleness.2 [mkRow 1000 c2E1] 999999 (by decide)⟩

/-- **C6.** The cache write replaces the prior snapshot atomically: when it
reports no error, the stored table is exactly the new rows — the old rows are
gone and every new row is stamped with the same `now`; when any insert fails
(a duplicate primary-key triple), the table is left exactly as before the
write (rollback). -/
theorem claim_C6_atomic_replace (t₀ : List Row) (exts : List Extension) (now : Int) :
    ((dbUpdateExtensions t₀ exts now).2 = none →
      (dbUpdateExtensions t₀ exts now).1 = exts.map (mkRow now) ∧
      ∀ r ∈ (dbUpdateExtensions t₀ exts now).1, r.timestamp = now) ∧
    ((dbUpdateExtensions t₀ exts now).2 ≠ none →
      (dbUpdateExtensions t₀ exts now).1 = t₀) := by
  unfold dbUpdateExtensions
  cases hi : insertAll (exts.map (mkRow now)) [] with
  | ok t =>
    constructor
    · intro _
      have ht := insertAll_ok_append _ _ _ hi
      rw [List.nil_append] at ht
      subst ht
      refine ⟨rfl, ?_⟩
      intro r hr
      rcases List.mem_map.mp hr with ⟨e, _, rfl⟩
      rfl
    · intro hne
      exact absurd rfl hne
  | error msg =>
    constructor
    · intro h
      cases h
    · intro _
      rfl

/-- Witness for C6: a distinct-triple write replaces the old row with the
freshly stamped new row; a write containing a duplicated triple fails and
leaves the previous snapshot untouched. -/
theorem claim_C6_atomic_replace_witness :
    (dbUpdateExtensions [c6Row] [c6E] 5).1 = [c6E].map (mkRow 5) ∧
    (dbUpdateExtensions [c6Row] [c6E, c6Edup] 5).1 = [c6Row] :=
  ⟨((claim_C6_atomic_replace [c6Row] [c6E] 5).1 (by decide)).1,
   (claim_C6_atomic_replace [c6Row] [c6E, c6Edup] 5).2 (by decide)⟩

/-- **C10.** A cache write of the empty list commits and stores zero rows, and
a read of the empty table — at any time whatsoever — returns the no-snapshot
signal: an empty snapshot is indistinguishable from an absent one, so a
browser whose last scan found nothing is rescanned on every run regardless of
the freshness window. -/
theorem claim_C10_empty_snapshot_signals_rescan (t₀ : List Row) (now nowr : Int) :
    dbUpdateExtensions t₀ [] now = ([], none) ∧ dbGetExtensions [] nowr = none :=
  ⟨rfl, rfl⟩

end BrowserInventory
